import Mathlib

/-!
Verification of the hypercerts impact-claim client.

This file shallowly embeds the logic of `src/App.tsx` and
`src/components/Form.tsx`: the record normalizer and zod-schema validator,
the form controller (`handleSubmit`, `fillExample`, `resetForm`,
`removeRow`), the list controller (`fetchPage`, `handleNext`, `handleBack`,
the client-side filter), and the JavaScript `Date` conversions used by the
date helpers (`localDateTimeToISO`, `isoToLocalDateTime`).

JavaScript machine behaviour is modelled explicitly:
machine integers become `Int`, the environment timezone becomes an explicit
offset parameter `off` (minutes east of UTC, the negation of
`Date.prototype.getTimezoneOffset`), and fallible parsing returns `Option`.
-/

namespace GainForest

/-! ## Calendar arithmetic (model of the ECMAScript time value)

A JavaScript `Date` holds an integer count of milliseconds since the Unix
epoch.  We convert between that count and calendar components with the
standard civil-calendar algorithms (proleptic Gregorian), which is exactly
the arithmetic ECMAScript specifies for `Date.UTC`, the component getters
and `toISOString`. -/

/-- Calendar components of a date-time: `month` is 1-based (January = 1).
JavaScript APIs that take or return 0-based month indices are translated at
each use site. Out-of-range components are meaningful as inputs to
`msOfCivil` (the `Date` constructor and `Date.UTC` normalize them). -/
structure DateTime where
  year : Int
  month : Int
  day : Int
  hour : Int
  minute : Int
  second : Int
  ms : Int
deriving DecidableEq

/-- Gregorian leap-year test. -/
def isLeap (y : Int) : Bool :=
  y % 4 == 0 && (y % 100 != 0 || y % 400 == 0)

/-- Number of days in month `m` (1-based) of year `y`. -/
def daysInMonth (y m : Int) : Int :=
  if m = 2 then (if isLeap y then 29 else 28)
  else if m = 4 ∨ m = 6 ∨ m = 9 ∨ m = 11 then 30
  else 31

/-- Days from the Unix epoch (1970-01-01) to civil date `y-m-d`
(days-from-civil algorithm).  Linear in `d`, and `m` is normalized into
`y` first, so out-of-range day and month arguments roll over exactly as
the ECMAScript `MakeDay` operation specifies. -/
def daysFromCivil (y m d : Int) : Int :=
  let y1 := y + (m - 1).ediv 12
  let m1 := (m - 1).emod 12 + 1
  let y2 := if m1 ≤ 2 then y1 - 1 else y1
  let era := y2.ediv 400
  let yoe := y2 - era * 400
  let doy := (153 * (if 2 < m1 then m1 - 3 else m1 + 9) + 2).ediv 5 + d - 1
  let doe := yoe * 365 + yoe.ediv 4 - yoe.ediv 100 + doy
  era * 146097 + doe - 719468

/-- Civil date `(y, m, d)` of a day count from the Unix epoch
(civil-from-days algorithm, inverse of `daysFromCivil` on canonical
dates). -/
def civilFromDays (z : Int) : Int × Int × Int :=
  let z1 := z + 719468
  let era := z1.ediv 146097
  let doe := z1 - era * 146097
  let yoe := (doe - doe.ediv 1460 + doe.ediv 36524 - doe.ediv 146096).ediv 365
  let y := yoe + era * 400
  let doy := doe - (365 * yoe + yoe.ediv 4 - yoe.ediv 100)
  let mp := (5 * doy + 2).ediv 153
  let d := doy - (153 * mp + 2).ediv 5 + 1
  let m := if mp < 10 then mp + 3 else mp - 9
  (if m ≤ 2 then y + 1 else y, m, d)

/-- ECMAScript time value (ms since epoch) of calendar components, as
computed by `Date.UTC` / `MakeDate`.  Total: out-of-range components
normalize. -/
def msOfCivil (c : DateTime) : Int :=
  daysFromCivil c.year c.month c.day * 86400000
    + c.hour * 3600000 + c.minute * 60000 + c.second * 1000 + c.ms

/-- Canonical calendar components of an ECMAScript time value, as read by
the UTC component getters. -/
def civilOfMs (t : Int) : DateTime :=
  let days := t.ediv 86400000
  let r := t.emod 86400000
  let ymd := civilFromDays days
  { year := ymd.1, month := ymd.2.1, day := ymd.2.2,
    hour := r.ediv 3600000, minute := (r.ediv 60000).emod 60,
    second := (r.ediv 1000).emod 60, ms := r.emod 1000 }

/-! ## String formatting (models of `toISOString` and the template in
`isoToLocalDateTime`) -/

/-- `String(n).padStart(2, "0")` for a non-negative number. -/
def pad2 (n : Int) : String :=
  if n < 10 then "0" ++ toString n else toString n

/-- Three-digit zero padding (milliseconds field of `toISOString`). -/
def pad3 (n : Int) : String :=
  if n < 10 then "00" ++ toString n
  else if n < 100 then "0" ++ toString n
  else toString n

/-- Four-digit zero padding (year field of `toISOString`; the expanded
negative/five-digit year forms never arise in this development). -/
def pad4 (n : Int) : String :=
  if n < 10 then "000" ++ toString n
  else if n < 100 then "00" ++ toString n
  else if n < 1000 then "0" ++ toString n
  else toString n

/-- `Date.prototype.toISOString` applied to the time value `t`. -/
def toISOString (t : Int) : String :=
  let c := civilOfMs t
  pad4 c.year ++ "-" ++ pad2 c.month ++ "-" ++ pad2 c.day ++ "T"
    ++ pad2 c.hour ++ ":" ++ pad2 c.minute ++ ":" ++ pad2 c.second
    ++ "." ++ pad3 c.ms ++ "Z"

/-! ## Parsing (model of `new Date(string)` on the formats this app
produces)

The app hands `new Date` exactly two shapes of string: the
`datetime-local` widget value `YYYY-MM-DDTHH:MM` (interpreted in local
time) and full ISO strings `YYYY-MM-DDTHH:MM:SS(.mmm)?Z` (interpreted in
UTC).  The parser below accepts the ECMAScript date-time string format
restricted to those shapes (date-only strings parse as UTC midnight, as
specified); numeric-offset suffixes and the `T24:00` edge case never occur
here and are not modelled. -/

/-- Read exactly `n` decimal digits, returning their value and the rest. -/
def readDigitsAux : Nat → Nat → List Char → Option (Nat × List Char)
  | 0, acc, cs => some (acc, cs)
  | n + 1, acc, c :: cs =>
      if c.isDigit then readDigitsAux n (acc * 10 + (c.toNat - 48)) cs
      else none
  | _ + 1, _, [] => none

def readDigits (n : Nat) (cs : List Char) : Option (Nat × List Char) :=
  readDigitsAux n 0 cs

/-- Consume one expected character. -/
def skipChar (ch : Char) : List Char → Option (List Char)
  | c :: cs => if c = ch then some cs else none
  | [] => none

/-- Parse an ECMAScript date-time string into calendar components plus a
flag that is `true` when the string denotes a UTC instant (trailing `Z`,
or a date-only string) and `false` when it denotes local time. Returns
`none` exactly when `new Date(s)` would be an Invalid Date. -/
def jsParseString (s : String) : Option (DateTime × Bool) := do
  let (y, cs) ← readDigits 4 s.data
  let cs ← skipChar '-' cs
  let (mo, cs) ← readDigits 2 cs
  let cs ← skipChar '-' cs
  let (d, cs) ← readDigits 2 cs
  if mo < 1 ∨ 12 < (mo : Int) then none
  else if d < 1 ∨ daysInMonth y mo < (d : Int) then none
  else
    let date : DateTime :=
      { year := y, month := mo, day := d,
        hour := 0, minute := 0, second := 0, ms := 0 }
    match cs with
    | [] => some (date, true)
    | 'T' :: cs => do
        let (h, cs) ← readDigits 2 cs
        let cs ← skipChar ':' cs
        let (mi, cs) ← readDigits 2 cs
        if 23 < h ∨ 59 < mi then none
        else
          let dt := { date with hour := h, minute := mi }
          match cs with
          | [] => some (dt, false)
          | ['Z'] => some (dt, true)
          | ':' :: cs => do
              let (sec, cs) ← readDigits 2 cs
              if 59 < sec then none
              else
                let dt := { dt with second := sec }
                match cs with
                | [] => some (dt, false)
                | ['Z'] => some (dt, true)
                | '.' :: cs => do
                    let (msv, cs) ← readDigits 3 cs
                    let dt := { dt with ms := msv }
                    match cs with
                    | [] => some (dt, false)
                    | ['Z'] => some (dt, true)
                    | _ => none
                | _ => none
          | _ => none
    | _ => none

/-- Time value of `new Date(s)` in an environment whose local timezone is
`off` minutes east of UTC; `none` models an Invalid Date. -/
def jsParse (off : Int) (s : String) : Option Int :=
  (jsParseString s).map fun p =>
    msOfCivil p.1 - (if p.2 then 0 else off * 60000)

/-- Local-time calendar components of the time value `t` (what the
non-UTC getters `getFullYear` .. `getMilliseconds` return) in an
environment with offset `off`. -/
def localComps (off : Int) (t : Int) : DateTime :=
  civilOfMs (t + off * 60000)

/-! ## The date helpers of `components/Form.tsx` -/

/-- `localDateTimeToISO` (Form.tsx lines 49-63): parses the string with
`new Date`, reads its LOCAL components, and feeds them to `Date.UTC`,
so the local wall-clock reading is re-labelled as a UTC instant.  The
0-based `getMonth()` feeds the 0-based month slot of `Date.UTC`, so the two
conventions cancel and the 1-based components pass through unchanged.
On a string `new Date` cannot parse the original throws a `RangeError`
from `toISOString`; no claim evaluates that branch, and it is rendered
here as `""` to keep the embedding total. -/
def localDateTimeToISO (off : Int) (dt : String) : String :=
  if dt = "" then ""
  else
    match jsParse off dt with
    | none => ""
    | some t => toISOString (msOfCivil (localComps off t))

/-- `isoToLocalDateTime` (Form.tsx lines 65-75): parses the ISO string and
formats the LOCAL components to the minute as `YYYY-MM-DDTHH:MM`.  On an
unparseable string the getters return `NaN` and the template produces the
literal shown (`String(NaN).padStart(2, "0")` is `"NaN"`); no claim
evaluates that branch. -/
def isoToLocalDateTime (off : Int) (iso : String) : String :=
  if iso = "" then ""
  else
    match jsParse off iso with
    | none => "NaN-NaN-NaNTNaN:NaN"
    | some t =>
        let c := localComps off t
        toString c.year ++ "-" ++ pad2 c.month ++ "-" ++ pad2 c.day ++ "T"
          ++ pad2 c.hour ++ ":" ++ pad2 c.minute

/-! ## JavaScript string utilities used by the form and list code -/

/-- ASCII whitespace recognised by `String.prototype.trim` (the further
Unicode space code points never occur in this development). -/
def isJsSpace (c : Char) : Bool :=
  c = ' ' ∨ c = '\t' ∨ c = '\n' ∨ c = '\r' ∨ c.toNat = 11 ∨ c.toNat = 12

/-- `String.prototype.trim`. -/
def jsTrim (s : String) : String :=
  String.mk (((s.data.dropWhile isJsSpace).reverse.dropWhile isJsSpace).reverse)

/-- `String.prototype.toLowerCase` (ASCII; no input here leaves ASCII). -/
def jsToLower (s : String) : String :=
  String.mk (s.data.map Char.toLower)

/-- Whether `q` occurs as a contiguous sublist of `hay`. -/
def subListAt (q : List Char) : List Char → Bool
  | [] => q.isEmpty
  | c :: cs => List.isPrefixOf q (c :: cs) || subListAt q cs

/-- `String.prototype.includes`: substring containment. -/
def jsIncludes (hay q : String) : Bool :=
  subListAt q.data hay.data

/-! ## The impact-claim record and its zod schema (Form.tsx lines 14-41)

zod is an external library; the two leaf validators are modelled from its
documented behaviour on the value shapes this app produces. -/

/-- The `ImpactClaim` record type (Form.tsx lines 14-24).  Optional
string fields are `Option String` (`undefined` is `none`); the `record`
memo always supplies `contributors_uri`, so it is a plain list. -/
structure ImpactClaim where
  impact_claim_id : String
  work_scope : String
  uri : List String
  work_start_time : String
  work_end_time : String
  description : Option String
  contributors_uri : List String
  rights_uri : Option String
  location_uri : Option String
deriving DecidableEq

/-- Model of the external check `z.string().datetime()` used by
`dateSchema`: the zod datetime regex — four digits, `-`, two digits, `-`,
two digits, `T`, then two-digit hour, minute and second separated by `:`,
an optional fraction of one or more digits, and a mandatory literal `Z`
(full ISO-8601 UTC form; no timezone offsets). -/
def isZodDatetime (s : String) : Bool :=
  (Option.isSome <| do
    let (_, cs) ← readDigits 4 s.data
    let cs ← skipChar '-' cs
    let (_, cs) ← readDigits 2 cs
    let cs ← skipChar '-' cs
    let (_, cs) ← readDigits 2 cs
    let cs ← skipChar 'T' cs
    let (_, cs) ← readDigits 2 cs
    let cs ← skipChar ':' cs
    let (_, cs) ← readDigits 2 cs
    let cs ← skipChar ':' cs
    let (_, cs) ← readDigits 2 cs
    match cs with
    | ['Z'] => some ()
    | '.' :: cs =>
        let frac := cs.takeWhile Char.isDigit
        if frac.isEmpty then none
        else match cs.dropWhile Char.isDigit with
          | ['Z'] => some ()
          | _ => none
    | _ => none)

/-- Scheme characters allowed after the first character of a URI scheme. -/
def isSchemeChar (c : Char) : Bool :=
  c.isAlphanum ∨ c = '+' ∨ c = '-' ∨ c = '.'

/-- Split a leading `scheme:` prefix off a character list. -/
def findScheme : List Char → Option (List Char × List Char)
  | [] => none
  | ':' :: rest => some ([], rest)
  | c :: rest =>
      if isSchemeChar c then
        (findScheme rest).map fun p => (c :: p.1, p.2)
      else none

/-- Model of the external check `z.string().url()` used by `uriSchema`:
zod accepts a string iff `new URL(string)` succeeds, i.e. the string is an
absolute URI.  Modelled as: a non-empty alphabetic-initial scheme followed
by `:`, with the web schemes additionally requiring `//` and a non-empty
host.  This matches `new URL` on every URI shape exercised in this
development (https URLs, `did:` identifiers, the empty string). -/
def isZodUrl (s : String) : Bool :=
  match findScheme s.data with
  | none => false
  | some ([], _) => false
  | some (c :: sch, rest) =>
      c.isAlpha &&
        (let scheme := String.mk (Char.toLower c :: sch.map Char.toLower)
         if scheme = "http" ∨ scheme = "https" ∨ scheme = "ws"
            ∨ scheme = "wss" ∨ scheme = "ftp" then
           match rest with
           | '/' :: '/' :: h :: _ => h ≠ '/'
           | _ => false
         else true)

/-- The issue list produced by `ImpactClaimSchema.safeParse` (Form.tsx
lines 31-41), in zod shape-key order; each issue carries its path and
message.  The checks `z.string().min(0)` on `impact_claim_id` and
`work_scope` and `z.array(..).min(0)` on `uri` can never fail (a length is
never below zero), so the attached messages "Required" and "At least one
URI is required" are unreachable; only `max(255)`, the per-element URL
check and the two datetime checks can produce issues.  The optional
fields accept every value the normalizer can supply. -/
def zodIssues (r : ImpactClaim) : List (List String × String) :=
  (if 255 < r.impact_claim_id.length
   then [(["impact_claim_id"], "String must contain at most 255 character(s)")]
   else [])
  ++ r.uri.enum.filterMap
       (fun p => if isZodUrl p.2 then none
                 else some (["uri", toString p.1], "Must be a valid URI"))
  ++ (if isZodDatetime r.work_start_time then []
      else [(["work_start_time"], "Must be an ISO date-time (RFC3338)")])
  ++ (if isZodDatetime r.work_end_time then []
      else [(["work_end_time"], "Must be an ISO date-time (RFC3338)")])

/-! ## Form controller state (Form.tsx lines 82-101) -/

/-- One editable slot per field, mirroring the nine `useState` slots. -/
structure FormFields where
  impactClaimId : String
  workScope : String
  uris : List String
  startLocal : String
  endLocal : String
  description : String
  contributors : List String
  rightsUri : String
  locationUri : String
deriving DecidableEq

/-- Full controller state: fields plus the transient `submitting` flag and
the `errors` mapping (`Record<string, string[]>`, modelled as an
insertion-ordered association list). -/
structure FormState where
  fields : FormFields
  submitting : Bool
  errors : List (String × List String)
deriving DecidableEq

/-- The `initial` prop (`Partial<ImpactClaim>`); an absent prop is the
all-`none` value. -/
structure Initial where
  impact_claim_id : Option String := none
  work_scope : Option String := none
  uri : Option (List String) := none
  work_start_time : Option String := none
  work_end_time : Option String := none
  description : Option String := none
  contributors_uri : Option (List String) := none
  rights_uri : Option String := none
  location_uri : Option String := none

/-- The construction-time field values (the `useState` initializers,
Form.tsx lines 82-98).  `isoToLocalDateTime` receives `undefined` as `""`
(both are falsy in the `if (!iso)` guard). -/
def initFields (off : Int) (ini : Initial) : FormFields :=
  { impactClaimId := ini.impact_claim_id.getD ""
    workScope := ini.work_scope.getD ""
    uris := ini.uri.getD [""]
    startLocal := isoToLocalDateTime off (ini.work_start_time.getD "")
    endLocal := isoToLocalDateTime off (ini.work_end_time.getD "")
    description := ini.description.getD ""
    contributors := ini.contributors_uri.getD []
    rightsUri := ini.rights_uri.getD ""
    locationUri := ini.location_uri.getD "" }

/-- The derived normalized record (the `record` memo, Form.tsx lines
103-126): every string field trimmed, both sequence fields trimmed
elementwise and stripped of empty strings (`filter(Boolean)`), local
date-times converted by `localDateTimeToISO`, empty optional strings
converted to `undefined` (`trim() || undefined`). -/
def mkRecord (off : Int) (f : FormFields) : ImpactClaim :=
  { impact_claim_id := jsTrim f.impactClaimId
    work_scope := jsTrim f.workScope
    uri := (f.uris.map jsTrim).filter (· != "")
    work_start_time := localDateTimeToISO off f.startLocal
    work_end_time := localDateTimeToISO off f.endLocal
    description := if jsTrim f.description = "" then none
                   else some (jsTrim f.description)
    contributors_uri := (f.contributors.map jsTrim).filter (· != "")
    rights_uri := if jsTrim f.rightsUri = "" then none
                  else some (jsTrim f.rightsUri)
    location_uri := if jsTrim f.locationUri = "" then none
                    else some (jsTrim f.locationUri) }

/-- `issue.path.join(".") || "form"`. -/
def joinPath (ps : List String) : String :=
  if String.intercalate "." ps = "" then "form"
  else String.intercalate "." ps

/-- `setFieldError` (Form.tsx lines 131-136): append the message to the
entry at `path`, deduplicating (`Array.from(new Set(...))` preserves
first-occurrence order), keeping the position of an existing key as the
object spread does. -/
def setFieldError (path msg : String) :
    List (String × List String) → List (String × List String)
  | [] => [(path, [msg])]
  | (k, v) :: rest =>
      if k = path then (k, if msg ∈ v then v else v ++ [msg]) :: rest
      else (k, v) :: setFieldError path msg rest

/-- The `errors` mapping `validateInline` builds from an issue list
(Form.tsx lines 138-148). -/
def buildErrors (issues : List (List String × String)) :
    List (String × List String) :=
  issues.foldl (fun acc i => setFieldError (joinPath i.1) i.2 acc) []

/-- Everything observable about one `handleSubmit` call: the state it
leaves behind, the list of `onSubmit` invocations it made (in order), and
whether a rejection of `onSubmit` propagated to the caller. -/
structure SubmitOutcome where
  state : FormState
  calls : List ImpactClaim
  threw : Bool
deriving DecidableEq

/-- `handleSubmit` (Form.tsx lines 150-162): a guarded no-op while
`disabled` or `submitting`; otherwise clears errors, re-validates
(`validateInline`), stops with the errors populated when validation
fails, and on success sets `submitting`, awaits `onSubmit(record)`
(`cbRejects` says whether that promise rejects), and clears `submitting`
in the `finally` block either way. -/
def handleSubmit (off : Int) (disabled cbRejects : Bool) (s : FormState) :
    SubmitOutcome :=
  if disabled || s.submitting then ⟨s, [], false⟩
  else
    let issues := zodIssues (mkRecord off s.fields)
    let s1 : FormState := { s with errors := buildErrors issues }
    if issues.isEmpty then
      ⟨{ s1 with submitting := false }, [mkRecord off s.fields], cbRejects⟩
    else ⟨s1, [], false⟩

/-- `removeRow` (Form.tsx lines 181-185): on a non-empty array, keep the
entries whose position differs from `index` (`filter((_, i) => i !==
index)`); an empty array is returned unchanged. -/
def removeRow (index : Nat) (arr : List String) : List String :=
  if 0 < arr.length then
    (arr.enum.filter (fun p => p.1 != index)).map Prod.snd
  else arr

/-- `fillExample` (Form.tsx lines 188-225): overwrites every field with
the demo payload and clears errors.  `now` carries the LOCAL calendar
components of the current time; the demo start and end instants are built
with the local `Date` constructor from components `(day - 6, 8, -1, -1)`
and `(day + 13, 16, -1, -1)` (the constructor takes a 0-based month from
the 0-based `getMonth()`, so the conventions cancel), then serialized
with `toISOString` and re-read with `isoToLocalDateTime`. -/
def fillExample (off : Int) (now : DateTime) (s : FormState) : FormState :=
  let startT := msOfCivil ⟨now.year, now.month, now.day - 6, 8, -1, -1, 0⟩
      - off * 60000
  let endT := msOfCivil ⟨now.year, now.month, now.day + 13, 16, -1, -1, 0⟩
      - off * 60000
  { s with
    fields :=
      { impactClaimId := "claim-000-demo"
        workScope := "Open-source climate modeling tools"
        description := "Released v0.0 of a reproducible climate impact toolkit; documented methods and published benchmarks."
        uris := ["https://github.com/example/hypercerts-climate-toolkit",
                 "https://example.org/report/2024-q3"]
        contributors := ["did:plc:abcd1233efgh5678",
                         "https://bsky.app/profile/alice.example.com"]
        rightsUri := "https://creativecommons.org/licenses/by/3.0/"
        locationUri := "https://maps.google.com/?q=Thimphu,Bhutan"
        startLocal := isoToLocalDateTime off (toISOString startT)
        endLocal := isoToLocalDateTime off (toISOString endT) }
    errors := [] }

/-- `resetForm` (Form.tsx lines 227-238): restores every field slot to
its construction-time initializer and clears errors. -/
def resetForm (off : Int) (ini : Initial) (s : FormState) : FormState :=
  { s with fields := initFields off ini, errors := [] }

/-! ## App-level create handler (App.tsx lines 35-42) -/

/-- The externally observable effects of one `handleCreate` call. -/
inductive AppEffect where
  | createCall (r : ImpactClaim)
  | toastSuccess
deriving DecidableEq

/-- `handleCreate` (App.tsx lines 35-42): with no authenticated session it
returns at once; otherwise it awaits `createImpactClaim(session, record)`
(`apiOk` says whether that promise resolves) and raises the success toast
only after it resolves; a rejection propagates to the caller.  The result
is the ordered list of effects plus the propagated-rejection flag. -/
def handleCreate (session : Option String) (apiOk : Bool)
    (r : ImpactClaim) : List AppEffect × Bool :=
  match session with
  | none => ([], false)
  | some _ =>
      if apiOk then ([AppEffect.createCall r, AppEffect.toastSuccess], false)
      else ([AppEffect.createCall r], true)

/-! ## List controller (Form.tsx part 2: `HypercertsListPage`)

The item payload is kept abstract: `ListedClaim` is `ImpactClaim` with
`uri` loosened to `any`, and the serialized form of a fetched item
depends on the key order the server sent, so the controller is generic in
the item type and the filter is generic in the external
`JSON.stringify`. -/

/-- The controller state: the six `useState` slots in source order. -/
structure ListState (α : Type) where
  loading : Bool
  items : List α
  cursor : Option String
  history : List (Option String)
  query : String
  error : Option String
deriving DecidableEq

/-- `fetchPage` (lines 605-629), with the external
`listImpactClaims(session, ...)` call abstracted as `api` (its rejection
reason is discarded after `console.error`): a no-op without a session;
otherwise sets loading and clears the error, and on resolution replaces
`items` and `cursor` and pushes the requested cursor onto `history` only
when asked to, while on rejection records the user-facing message; the
`finally` block clears `loading` either way. -/
def fetchPage {α : Type}
    (api : Option String → Except Unit (List α × Option String))
    (session : Bool) (nextCursor : Option String) (pushHistory : Bool)
    (s : ListState α) : ListState α :=
  if !session then s
  else
    match api nextCursor with
    | Except.ok res =>
        { s with loading := false, error := none,
                 items := res.1, cursor := res.2,
                 history := if pushHistory then s.history ++ [nextCursor]
                            else s.history }
    | Except.error _ =>
        { s with loading := false,
                 error := some "Failed to load hypercerts." }

/-- `handleNext` (line 635): `fetchPage(cursor ?? null, true)`. -/
def handleNext {α : Type}
    (api : Option String → Except Unit (List α × Option String))
    (session : Bool) (s : ListState α) : ListState α :=
  fetchPage api session s.cursor true s

/-- `handleBack` (lines 636-644): a no-op when at most one history entry
remains; otherwise pops the top entry and re-fetches with the cursor now
on top (`nextHistory[nextHistory.length - 1] ?? null`) without pushing.
The re-fetch neither reads nor writes `history` (its `pushHistory` is
`false`), so applying it after the pop matches the interleaving of the
`setHistory` updater. -/
def handleBack {α : Type}
    (api : Option String → Except Unit (List α × Option String))
    (session : Bool) (s : ListState α) : ListState α :=
  if s.history.length ≤ 1 then s
  else
    let nextHistory := s.history.dropLast
    let prevCursor := (nextHistory.getLast?).getD none
    fetchPage api session prevCursor false { s with history := nextHistory }

/-- A user-level press of the Next control: both Next buttons carry the
attribute `disabled` set to `loading || !cursor` (lines 716 and 956), so
a press is a no-op while loading or when no forward cursor exists. -/
def clickNext {α : Type}
    (api : Option String → Except Unit (List α × Option String))
    (session : Bool) (s : ListState α) : ListState α :=
  if s.loading || s.cursor == none then s else handleNext api session s

/-- A user-level press of the Back control: both Back buttons carry the
attribute `disabled` set to `loading || history.length <= 1` (lines 707
and 948). -/
def clickBack {α : Type}
    (api : Option String → Except Unit (List α × Option String))
    (session : Bool) (s : ListState α) : ListState α :=
  if s.loading || s.history.length ≤ 1 then s else handleBack api session s

/-- The derived `filtered` list (lines 646-653), generic in the external
serializer `ser` standing for `JSON.stringify`: lowercase the trimmed
query; an empty result keeps the page unfiltered, otherwise keep the
items whose lowercased serialized form contains it. -/
def filteredItems {α : Type} (ser : α → String) (items : List α)
    (query : String) : List α :=
  let q := jsToLower (jsTrim query)
  if q = "" then items
  else items.filter fun it => jsIncludes (jsToLower (ser it)) q

/-! ## Helper lemmas -/

/-- `jsToLower` maps a string to the empty string only from the empty
string (lowercasing preserves length). -/
theorem jsToLower_empty_iff (s : String) : jsToLower s = "" ↔ s = "" := by
  constructor
  · intro h
    have hd := congrArg String.data h
    cases s with
    | mk l =>
      cases l with
      | nil => rfl
      | cons c cs => simp [jsToLower] at hd
  · intro h
    rw [h]
    rfl

/-- Filtering an enumerated list by position and re-projecting deletes
exactly the entry at the targeted index (shifted by the enumeration
start), and deletes nothing when the index lies outside. -/
theorem enumFrom_filter_ne_map {α : Type} (i : Nat) :
    ∀ (n : Nat) (l : List α),
      ((List.enumFrom n l).filter (fun p => p.1 != i)).map Prod.snd =
        if i < n then l else l.eraseIdx (i - n) := by
  intro n l
  induction l generalizing n with
  | nil => simp [List.enumFrom]
  | cons a l ih =>
    by_cases h : n = i
    · subst h
      simp [List.enumFrom, List.filter_cons, ih (n + 1), Nat.lt_irrefl,
        Nat.lt_succ_of_le]
    · have hb : (n != i) = true := by simp [h]
      simp only [List.enumFrom, List.filter_cons, hb, if_true, List.map,
        ih (n + 1)]
      rcases Nat.lt_or_ge i n with hlt | hge
      · rw [if_pos hlt, if_pos (Nat.lt_succ_of_lt hlt)]
      · have h1 : ¬ i < n := Nat.not_lt.mpr hge
        have h2 : ¬ i < n + 1 := by omega
        rw [if_neg h2, if_neg h1]
        have h3 : i - n = (i - (n + 1)) + 1 := by omega
        rw [h3]
        rfl

/-! ## Claim C1 -/

/-- A raw field state missing two required fields: `workScope` trims to
the empty string and the single `uris` entry trims away, so the
normalized record has `work_scope = ""` and `uri = []`; both date fields
are well-formed. -/
def c1fields : FormFields :=
  ⟨"", "   ", [""], "2024-01-01T12:00", "2024-01-02T12:00", "", [], "", ""⟩

def c1state : FormState := ⟨c1fields, false, []⟩

/-- Claim C1: a raw field state with empty trimmed work scope and an
empty filtered uri sequence must cause submit to skip the create callback
and leave error entries — but evaluating `handleSubmit` (environment
offset 0, form enabled, not submitting) shows validation passes
(`z.string().min(0)` and `z.array(..).min(0)` accept the empty values),
the callback is invoked with the record, and the errors mapping stays
empty. -/
theorem c1_missing_required_still_submits :
    (mkRecord 0 c1fields).work_scope = "" ∧
    (mkRecord 0 c1fields).uri = [] ∧
    (handleSubmit 0 false false c1state).calls = [mkRecord 0 c1fields] ∧
    (handleSubmit 0 false false c1state).state.errors = [] := by decide

/-! ## Claim C2 -/

/-- Claim C2: from any non-submitting field state whose normalized record
passes the schema, `handleSubmit` with the form enabled invokes the
create callback exactly once, with the normalized record: the scalar
string fields equal the trimmed inputs, the optional fields are either
unset or the trimmed input, and the two sequences are elementwise trimmed
with every empty entry removed — in particular neither sequence contains
an empty string. -/
theorem c2_valid_submit (off : Int) (cb : Bool) (s : FormState)
    (hsub : s.submitting = false)
    (hval : zodIssues (mkRecord off s.fields) = []) :
    (handleSubmit off false cb s).calls = [mkRecord off s.fields] ∧
    (mkRecord off s.fields).impact_claim_id = jsTrim s.fields.impactClaimId ∧
    (mkRecord off s.fields).work_scope = jsTrim s.fields.workScope ∧
    (mkRecord off s.fields).uri = (s.fields.uris.map jsTrim).filter (· != "") ∧
    (mkRecord off s.fields).contributors_uri =
      (s.fields.contributors.map jsTrim).filter (· != "") ∧
    ((mkRecord off s.fields).description = none ∨
      (mkRecord off s.fields).description = some (jsTrim s.fields.description)) ∧
    ((mkRecord off s.fields).rights_uri = none ∨
      (mkRecord off s.fields).rights_uri = some (jsTrim s.fields.rightsUri)) ∧
    ((mkRecord off s.fields).location_uri = none ∨
      (mkRecord off s.fields).location_uri = some (jsTrim s.fields.locationUri)) ∧
    (∀ u ∈ (mkRecord off s.fields).uri, u ≠ "") ∧
    (∀ u ∈ (mkRecord off s.fields).contributors_uri, u ≠ "") := by
  refine ⟨?_, rfl, rfl, rfl, rfl, ?_, ?_, ?_, ?_, ?_⟩
  · simp [handleSubmit, hsub, hval]
  · by_cases h : jsTrim s.fields.description = "" <;> simp [mkRecord, h]
  · by_cases h : jsTrim s.fields.rightsUri = "" <;> simp [mkRecord, h]
  · by_cases h : jsTrim s.fields.locationUri = "" <;> simp [mkRecord, h]
  · intro u hu
    simp only [mkRecord, List.mem_filter, bne_iff_ne, ne_eq] at hu
    exact hu.2
  · intro u hu
    simp only [mkRecord, List.mem_filter, bne_iff_ne, ne_eq] at hu
    exact hu.2

/-- Witness for C2 at a concrete valid state (whitespace-padded id and
contributor, one empty uri row that filtering removes). -/
theorem c2_valid_submit_witness :
    (handleSubmit 0 false false
        ⟨⟨" claim-1 ", "Reforestation", ["https://example.com", ""],
          "2024-01-01T12:00", "2024-01-02T12:00", "", ["  did:plc:xyz "],
          "", ""⟩, false, []⟩).calls =
      [mkRecord 0
        ⟨" claim-1 ", "Reforestation", ["https://example.com", ""],
          "2024-01-01T12:00", "2024-01-02T12:00", "", ["  did:plc:xyz "],
          "", ""⟩] :=
  (c2_valid_submit 0 false _ rfl (by decide)).1

/-! ## Claim C3 -/

/-- Claim C3 fails on the code: in an environment one hour east of UTC
(offset 60 minutes), the round trip through `localDateTimeToISO` and
`isoToLocalDateTime` shifts the zero-second local string
`"2024-01-01T12:00"` to `"2024-01-01T13:00"` instead of returning it —
`localDateTimeToISO` feeds the LOCAL getters to `Date.UTC`, re-labelling
the local wall clock as a UTC instant, and `isoToLocalDateTime` then
formats that instant in local time, adding the offset once. -/
theorem c3_roundtrip_shifted_by_offset :
    isoToLocalDateTime 60 (localDateTimeToISO 60 "2024-01-01T12:00") =
      "2024-01-01T13:00" ∧
    "2024-01-01T13:00" ≠ "2024-01-01T12:00" := by decide

/-! ## Claim C4 -/

/-- Claim C4: with a session present, a rejected listing call leaves
`items` exactly as they were, records the non-empty user-facing message,
and clears `loading`; and `loading` is cleared by `fetchPage` whatever
the call returns. -/
theorem c4_fetch_failure {α : Type}
    (api : Option String → Except Unit (List α × Option String))
    (s : ListState α) (c : Option String) (p : Bool)
    (herr : api c = Except.error ()) :
    (fetchPage api true c p s).items = s.items ∧
    (fetchPage api true c p s).error = some "Failed to load hypercerts." ∧
    "Failed to load hypercerts." ≠ "" ∧
    (∀ (api2 : Option String → Except Unit (List α × Option String))
       (c2 : Option String) (p2 : Bool),
       (fetchPage api2 true c2 p2 s).loading = false) := by
  refine ⟨by simp [fetchPage, herr], by simp [fetchPage, herr], by decide, ?_⟩
  intro api2 c2 p2
  rw [fetchPage]
  cases api2 c2 <;> simp

/-- Witness for C4: a failing api call against a one-page prior state. -/
theorem c4_fetch_failure_witness :
    (fetchPage (fun _ => (Except.error () : Except Unit (List Nat × Option String)))
        true none false ⟨false, [7], none, [none], "", none⟩).items = [7] :=
  (c4_fetch_failure (fun _ => Except.error ())
    ⟨false, [7], none, [none], "", none⟩ none false rfl).1

/-! ## Claim C5 -/

/-- A deterministic three-page API: cursor successions
none to "c1", "c1" to "c2", "c2" to none; any other cursor rejects. -/
def c5api : Option String → Except Unit (List String × Option String)
  | none => Except.ok (["page1-item"], some "c1")
  | some c =>
      if c = "c1" then Except.ok (["page2-item"], some "c2")
      else if c = "c2" then Except.ok (["page3-item"], none)
      else Except.error ()

/-- The state after the initial page load (the mount effect runs
`fetchPage(null, true)`). -/
def c5start : ListState String :=
  fetchPage c5api true none true ⟨false, [], none, [], "", none⟩

/-- The state after pressing Next three times and Back twice. The third
Next press is a no-op: after the last page the forward cursor is gone and
the control is disabled. -/
def c5final : ListState String :=
  clickBack c5api true (clickBack c5api true
    (clickNext c5api true (clickNext c5api true (clickNext c5api true c5start))))

/-- Claim C5: against the three-page API, three Next presses followed by
two Back presses return the controller to the first page's item set, and
one further Back press leaves the state unchanged (only one history
entry remains). -/
theorem c5_pagination_scenario :
    c5start.items = ["page1-item"] ∧
    c5final.items = c5start.items ∧
    clickBack c5api true c5final = c5final := by decide

/-! ## Claim C6 -/

/-- Claim C6: `handleSubmit` is a complete no-op — state returned
untouched, no callback invocation, nothing thrown — whenever the form is
disabled or a submission is already in flight; and whenever it did invoke
the callback, the `submitting` flag ends cleared, for a resolving and for
a rejecting callback alike (`cb` is universally quantified). -/
theorem c6_submit_guards (off : Int) (d cb : Bool) (s : FormState) :
    ((d = true ∨ s.submitting = true) →
      handleSubmit off d cb s = ⟨s, [], false⟩) ∧
    ((handleSubmit off d cb s).calls ≠ [] →
      (handleSubmit off d cb s).state.submitting = false) := by
  constructor
  · rintro (rfl | hs)
    · rfl
    · simp [handleSubmit, hs]
  · intro hc
    by_cases hd : (d || s.submitting) = true
    · rw [handleSubmit, if_pos hd] at hc ⊢
      simp at hc
    · by_cases hv : (zodIssues (mkRecord off s.fields)).isEmpty = true
      · rw [handleSubmit, if_neg hd]
        simp [hv]
      · rw [handleSubmit, if_neg hd] at hc
        simp [hv] at hc

/-- Witness for C6: the disabled guard at one concrete state, and the
cleared flag after an invocation at a concrete valid state. -/
theorem c6_submit_guards_witness :
    handleSubmit 0 true true
        ⟨⟨"w", "w", ["x"], "", "", "", [], "", ""⟩, false, [("uri", ["m"])]⟩ =
      ⟨⟨⟨"w", "w", ["x"], "", "", "", [], "", ""⟩, false, [("uri", ["m"])]⟩,
        [], false⟩ ∧
    (handleSubmit 0 false true
        ⟨⟨"", "scope", ["https://example.com"], "2024-01-01T12:00",
          "2024-01-01T12:00", "", [], "", ""⟩, false, []⟩).state.submitting =
      false :=
  ⟨(c6_submit_guards 0 true true _).1 (Or.inl rfl),
   (c6_submit_guards 0 false true _).2 (by decide)⟩

/-! ## Claim C7 -/

/-- The absent `initial` prop. -/
def noInitial : Initial := {}

/-- A fixed local clock reading for the demo-payload timestamps. -/
def c7now : DateTime := ⟨2024, 6, 15, 12, 0, 0, 0⟩

/-- A reachable form state in which the user has edited `workScope` to
`"hello"` after construction with no `initial` prop. -/
def c7state : FormState :=
  ⟨{ initFields 0 noInitial with workScope := "hello" }, false, []⟩

/-- Claim C7 fails on the code: `resetForm` restores the construction
initializers, not the values held immediately before `fillExample`, so
after editing `workScope` to `"hello"`, `fillExample` followed by
`resetForm` yields `workScope = ""`. -/
theorem c7_fill_reset_counterexample :
    (resetForm 0 noInitial (fillExample 0 c7now c7state)).fields.workScope ≠
      c7state.fields.workScope := by decide

/-- Claim C7 as amended: `fillExample` followed by `resetForm` restores
every field slot to its construction-time initial value (`initial` prop
or defaults); that coincides with the values held immediately before
`fillExample` exactly when the fields still held their initial values. -/
theorem c7_fill_reset_amended (off : Int) (ini : Initial) (now : DateTime)
    (s : FormState) :
    (resetForm off ini (fillExample off now s)).fields = initFields off ini ∧
    (s.fields = initFields off ini →
      (resetForm off ini (fillExample off now s)).fields = s.fields) :=
  ⟨rfl, fun h => by rw [h]; rfl⟩

/-- Witness for C7 (amended) at the unedited initial state. -/
theorem c7_fill_reset_amended_witness :
    (resetForm 0 noInitial (fillExample 0 c7now
        ⟨initFields 0 noInitial, false, []⟩)).fields =
      (⟨initFields 0 noInitial, false, []⟩ : FormState).fields :=
  (c7_fill_reset_amended 0 noInitial c7now
    ⟨initFields 0 noInitial, false, []⟩).2 rfl

/-! ## Claim C8 -/

/-- The serialized form of a loaded item whose `work_scope` is
`"Open-source climate modeling"` (`JSON.stringify` output). -/
def c8item : String :=
  "\x7b\"impact_claim_id\":\"claim-1\",\"work_scope\":\"Open-source climate modeling\",\"uri\":[\"https://example.com\"]\x7d"

/-- Claim C8: the filter is a pure function of the current page and the
query — a query that trims to empty yields the page unfiltered, any
other query keeps exactly the items whose serialized form contains the
(trimmed) query case-insensitively — and on a page holding the
climate-modeling item, the query "climate" retains it while "zzz"
excludes it. -/
theorem c8_filter_pure {α : Type} (ser : α → String) (items : List α)
    (query : String) :
    (jsTrim query = "" → filteredItems ser items query = items) ∧
    (jsTrim query ≠ "" →
      filteredItems ser items query =
        items.filter fun it =>
          jsIncludes (jsToLower (ser it)) (jsToLower (jsTrim query))) ∧
    (filteredItems (fun x => x) [c8item] "climate" = [c8item] ∧
      filteredItems (fun x => x) [c8item] "zzz" = []) := by
  refine ⟨?_, ?_, by decide, by decide⟩
  · intro h
    show (if jsToLower (jsTrim query) = "" then items else _) = items
    rw [h]
    rfl
  · intro h
    have hne : jsToLower (jsTrim query) ≠ "" := by
      intro he
      exact h ((jsToLower_empty_iff _).mp he)
    show (if jsToLower (jsTrim query) = "" then items else _) = _
    rw [if_neg hne]

/-- Witness for C8: the empty query and a non-empty query at concrete
pages. -/
theorem c8_filter_pure_witness :
    filteredItems (fun x => x) (["abc"] : List String) " " = ["abc"] ∧
    filteredItems (fun x => x) (["abc"] : List String) "B" =
      List.filter (fun it => jsIncludes (jsToLower it) (jsToLower (jsTrim "B")))
        ["abc"] :=
  ⟨(c8_filter_pure (fun x => x) ["abc"] " ").1 (by decide),
   (c8_filter_pure (fun x => x) ["abc"] "B").2.1 (by decide)⟩

/-! ## Claim C9 -/

/-- Claim C9: with no authenticated session, `handleCreate` performs no
effect at all for every submitted record and every behaviour of the
external api call — no `createImpactClaim` invocation, no success toast,
nothing thrown. -/
theorem c9_create_requires_session (apiOk : Bool) (r : ImpactClaim) :
    handleCreate none apiOk r = ([], false) := rfl

/-! ## Claim C10 -/

/-- Claim C10: `removeRow` is total — an in-range index deletes exactly
that element, keeping the rest in order, and an out-of-range index
returns the sequence unchanged. -/
theorem c10_removeRow_total (arr : List String) (i : Nat) :
    (i < arr.length → removeRow i arr = arr.eraseIdx i) ∧
    (arr.length ≤ i → removeRow i arr = arr) := by
  constructor
  · intro hlt
    have hpos : 0 < arr.length := Nat.lt_of_le_of_lt (Nat.zero_le i) hlt
    rw [removeRow, if_pos hpos, List.enum, enumFrom_filter_ne_map]
    simp
  · intro hle
    rw [removeRow]
    split
    · rw [List.enum, enumFrom_filter_ne_map]
      have h0 : ¬ i < 0 := Nat.not_lt.mpr (Nat.zero_le i)
      rw [if_neg h0, Nat.sub_zero]
      exact List.eraseIdx_of_length_le hle
    · rfl

/-- Witness for C10: deletion at index 0 and the out-of-range no-op. -/
theorem c10_removeRow_total_witness :
    removeRow 0 ["a", "b"] = List.eraseIdx ["a", "b"] 0 ∧
    removeRow 5 ["a", "b"] = ["a", "b"] :=
  ⟨(c10_removeRow_total ["a", "b"] 0).1 (by decide),
   (c10_removeRow_total ["a", "b"] 5).2 (by decide)⟩

end GainForest
